import Mathlib

/-!
Verification of the WayWard work-entry workflow (municipal "Wegewart" hour
tracking).  The definitions below are a shallow embedding of the Python
source: `src/app.py` (single-entry and mass approve/reject routes, entry
creation, role-scoped listing), `src/routes_jobs.py` and `src/routes/jobs.py`
(the jobs blueprint variants: create/update/delete and batch approve/reject).

Status strings, role tags, and column names are kept exactly as in the
source: statuses `erfasst` (submitted), `freigegeben_ov`/`freigegeben`
(approved), `abgerechnet` (billed), `abgelehnt` (rejected); roles
`wegewart` (worker), `ortsvorsteher` (supervisor), `verwaltung`
(administration), `admin` (administrator).
-/

/-! ### Python string primitives

Python `str.split(sep)`, `str.strip()` and `int(...)` modelled structurally
on the character list so that concrete instances evaluate in the kernel. -/

/-- `str.split(c)`: splitting the empty string yields `[""]`, as in Python. -/
def splitCharAux (c : Char) : List Char → List (List Char)
  | [] => [[]]
  | x :: xs =>
    let r := splitCharAux c xs
    if x = c then [] :: r
    else
      match r with
      | [] => [[x]]
      | h :: t => (x :: h) :: t

/-- Python `s.split(c)` for a one-character separator. -/
def pySplit (s : String) (c : Char) : List String :=
  (splitCharAux c s.data).map String.mk

/-- Whitespace stripping on a character list (both ends). -/
def stripChars (cs : List Char) : List Char :=
  ((cs.dropWhile Char.isWhitespace).reverse.dropWhile Char.isWhitespace).reverse

/-- Python `s.strip()`. -/
def pyStrip (s : String) : String :=
  String.mk (stripChars s.data)

/-- Decimal digits to a number; `[]` is not a number (Python `int("")` raises). -/
def digitsToNat? : List Char → Option Nat
  | [] => none
  | cs =>
    cs.foldl
      (fun acc c =>
        match acc with
        | none => none
        | some n => if c.isDigit then some (n * 10 + (c.toNat - 48)) else none)
      (some 0)

/-- Python `int(s)` for a nonnegative id string (`ValueError` becomes `none`);
`int` ignores surrounding whitespace. -/
def pyInt? (s : String) : Option Nat :=
  digitsToNat? (stripChars s.data)

/-! ### Role resolver

From `routes_jobs.get_user_roles` and `app.py has_role`: the stored
comma-separated role string is split on commas with whitespace trimmed
around each token; an empty string yields no roles. -/

/-- Decode the stored comma-separated role string into a list of tags. -/
def pyRoles (roles : String) : List String :=
  if roles = "" then [] else (pySplit roles ',').map pyStrip

/-- `app.py has_role(user_roles, role)`. -/
def has_role (user_roles : String) (role : String) : Bool :=
  if user_roles = "" then false
  else decide (role ∈ (pySplit user_roles ',').map pyStrip)

/-! ### Data model

One record type serves the `arbeitseinsaetze` table of `app.py` and the
`jobs` table used by `routes_jobs.py` — both carry exactly the columns
`user_id, datum, arbeitsstunden, taetigkeitsbeschreibung, machine_used,
status, rejection_reason, checked_time, checked_by, created_at`.
`REAL` hours are modelled as `Rat`, `TIMESTAMP`s as `Nat` ticks. -/

structure User where
  id : Nat
  ortsteil : String
  roles : String
  deriving Repr, DecidableEq

structure Job where
  id : Nat
  user_id : Nat
  datum : String
  arbeitsstunden : Rat
  taetigkeitsbeschreibung : String
  machine_used : Option Nat
  status : String
  rejection_reason : Option String
  checked_time : Option Nat
  checked_by : Option Nat
  created_at : Nat
  deriving Repr, DecidableEq

/-- The relational store: the `user` table and one entry table
(`arbeitseinsaetze` resp. `jobs`); `nextId` models `AUTOINCREMENT`. -/
structure DB where
  users : List User
  jobs : List Job
  nextId : Nat
  deriving Repr, DecidableEq

/-- Outcome of a request: JSON success with a count / id, plain success,
403 permission, 400 validation, 404 not-found, or a caught exception with
rollback. -/
inductive Res where
  | ok (n : Nat)
  | done
  | permission
  | validation
  | notFound
  | error
  deriving Repr, DecidableEq

/-- `routes_jobs.get_user_roles(user)`. -/
def get_user_roles (u : User) : List String :=
  pyRoles u.roles

/-- `routes_jobs.get_user_villages(user)`. -/
def get_user_villages (u : User) : List String :=
  [u.ortsteil]

/-- The `rolle_required(*allowed)` decorator of `app.py`: the actor must
hold at least one of the allowed role tags. -/
def rolle_required (actor : User) (allowed : List String) : Bool :=
  (pyRoles actor.roles).any (fun r => decide (r ∈ allowed))

/-! ### `app.py` routes -/

/-- `app.py einsatz_freigeben`: single-entry approve.  The `UPDATE ...
WHERE id = ?` carries no status condition; `ortsvorsteher` is tested
first and yields `freigegeben_ov`, otherwise `admin`/`verwaltung` yields
`abgerechnet`; both stamp `checked_time`/`checked_by`. -/
def einsatz_freigeben (db : DB) (actor : User) (now : Nat) (einsatz_id : Nat) : DB :=
  if ¬ rolle_required actor ["ortsvorsteher", "admin", "verwaltung"] then db
  else if has_role actor.roles "ortsvorsteher" then
    { db with
      jobs := db.jobs.map fun j =>
        if j.id = einsatz_id then
          { j with status := "freigegeben_ov", checked_time := some now,
                   checked_by := some actor.id }
        else j }
  else if has_role actor.roles "admin" ∨ has_role actor.roles "verwaltung" then
    { db with
      jobs := db.jobs.map fun j =>
        if j.id = einsatz_id then
          { j with status := "abgerechnet", checked_time := some now,
                   checked_by := some actor.id }
        else j }
  else db

/-- `app.py einsatz_ablehnen`: single-entry reject.  The reason defaults to
`""` and is not validated; only `status` and `rejection_reason` are set
(no reviewer stamp), with no status condition in the `WHERE` clause. -/
def einsatz_ablehnen (db : DB) (actor : User) (grund : String) (einsatz_id : Nat) : DB :=
  if ¬ rolle_required actor ["ortsvorsteher", "admin", "verwaltung"] then db
  else
    { db with
      jobs := db.jobs.map fun j =>
        if j.id = einsatz_id then
          { j with status := "abgelehnt", rejection_reason := some grund }
        else j }

/-- `app.py einsaetze_massenfreigabe`: mass approve over form ids (strings).
Each id is `int(...)`-parsed (failure skips the id); the `UPDATE` has no
status or scope condition and `erfolg` counts every parsed id whether or
not a row matched. -/
def einsaetze_massenfreigabe (db : DB) (actor : User) (now : Nat)
    (einsatz_ids : List String) : DB × Nat :=
  if ¬ rolle_required actor ["ortsvorsteher", "admin", "verwaltung"] then (db, 0)
  else if einsatz_ids = [] then (db, 0)
  else
    einsatz_ids.foldl
      (fun acc s =>
        match pyInt? s with
        | none => acc
        | some eid =>
          if has_role actor.roles "ortsvorsteher" then
            ({ acc.1 with
               jobs := acc.1.jobs.map fun j =>
                 if j.id = eid then
                   { j with status := "freigegeben_ov", checked_time := some now,
                            checked_by := some actor.id }
                 else j }, acc.2 + 1)
          else
            ({ acc.1 with
               jobs := acc.1.jobs.map fun j =>
                 if j.id = eid then
                   { j with status := "abgerechnet", checked_time := some now,
                            checked_by := some actor.id }
                 else j }, acc.2 + 1))
      (db, 0)

/-- `app.py einsaetze_massenablehnung`: mass reject over a comma-joined id
string.  Empty id string or empty reason is refused with an error flash and
no state change; otherwise each parseable id is set to `abgelehnt` with the
reason stored (no reviewer stamp, no status condition). -/
def einsaetze_massenablehnung (db : DB) (actor : User)
    (einsatz_ids_str : String) (ablehnungsgrund : String) : DB × Res :=
  if ¬ rolle_required actor ["ortsvorsteher", "admin", "verwaltung"] then (db, .permission)
  else if einsatz_ids_str = "" ∨ ablehnungsgrund = "" then (db, .validation)
  else
    let r :=
      (pySplit einsatz_ids_str ',').foldl
        (fun acc s =>
          match pyInt? s with
          | none => acc
          | some eid =>
            ({ acc.1 with
               jobs := acc.1.jobs.map fun j =>
                 if j.id = eid then
                   { j with status := "abgelehnt", rejection_reason := some ablehnungsgrund }
                 else j }, acc.2 + 1))
        (db, 0)
    (r.1, .ok r.2)

/-- Row inserted by `app.py einsatz_neu`: the `INSERT` names only
`user_id, datum, arbeitsstunden, taetigkeitsbeschreibung`, so the other
columns take their table defaults (`status 'erfasst'`, `NULL`s). -/
def neuEntry (nid uid : Nat) (datum : String) (h : Rat) (bem : String) (now : Nat) : Job :=
  { id := nid, user_id := uid, datum := datum, arbeitsstunden := h,
    taetigkeitsbeschreibung := bem, machine_used := none, status := "erfasst",
    rejection_reason := none, checked_time := none, checked_by := none,
    created_at := now }

/-- Loop of `app.py einsatz_neu`: `for i in range(len(datums))` with
`arbeitszeiten[i]` / `bemerkungen[i]` lookups; the Python indexing is
modelled by structural recursion over the three parallel lists (a missing
index raises `IndexError`, caught as one `fehler`).  A row with an empty
field or unparseable hours increments `fehler`, otherwise the row is
inserted and `erfolgreich` incremented.  `parse` models Python
`float(...)` (`none` = `ValueError`). -/
def einsatz_neu_rows (uid now : Nat) (parse : String → Option Rat) :
    List String → List String → List String → DB → Nat → Nat → DB × Nat × Nat
  | [], _, _, db, erf, feh => (db, erf, feh)
  | _ :: ds, [], bs, db, erf, feh =>
    einsatz_neu_rows uid now parse ds [] bs.tail db erf (feh + 1)
  | _ :: ds, _ :: as', [], db, erf, feh =>
    einsatz_neu_rows uid now parse ds as' [] db erf (feh + 1)
  | d :: ds, a :: as', b :: bs', db, erf, feh =>
    if d = "" ∨ a = "" ∨ b = "" then
      einsatz_neu_rows uid now parse ds as' bs' db erf (feh + 1)
    else
      match parse a with
      | none => einsatz_neu_rows uid now parse ds as' bs' db erf (feh + 1)
      | some h =>
        einsatz_neu_rows uid now parse ds as' bs'
          { db with jobs := db.jobs ++ [neuEntry db.nextId uid d h b now],
                    nextId := db.nextId + 1 }
          (erf + 1) feh

/-- `app.py einsatz_neu` (POST): multi-row creation; returns the store plus
the `(erfolgreich, fehler)` counters flashed to the user. -/
def einsatz_neu (db : DB) (actor : User) (now : Nat) (parse : String → Option Rat)
    (datums arbeitszeiten bemerkungen : List String) : DB × Nat × Nat :=
  einsatz_neu_rows actor.id now parse datums arbeitszeiten bemerkungen db 0 0

/-- Role-based `WHERE` clause of `app.py einsaetze_liste`: `wegewart` is
tested first (own entries), then `ortsvorsteher` (own district via the
joined owner), else no restriction.  The owner comes from the `JOIN`. -/
def einsaetze_liste_rolescope (actor : User) (owner : User) (j : Job) : Bool :=
  if has_role actor.roles "wegewart" then decide (j.user_id = actor.id)
  else if has_role actor.roles "ortsvorsteher" then decide (owner.ortsteil = actor.ortsteil)
  else true

/-- `app.py einsaetze_liste` with empty filter parameters (the optional
date/worker/status filters default to `''` and add no condition); the
`JOIN user` drops entries whose owner row is missing; ordering is not
modelled. -/
def einsaetze_liste (db : DB) (actor : User) : List Job :=
  db.jobs.filter fun j =>
    match db.users.find? (fun u => u.id = j.user_id) with
    | none => false
    | some owner => einsaetze_liste_rolescope actor owner j

/-! ### `routes_jobs.py` blueprint -/

/-- Permission block shared by `approve_jobs` and `reject_jobs`: `admin`
always may; otherwise `ortsvorsteher` needs the job owner's district in the
actor's villages.  The owner row is fetched first and subscripted only in
the `ortsvorsteher` branch (Python `and` short-circuits), so a missing
owner raises (`none`) exactly when that branch subscripts it. -/
def can_check? (users : List User) (actor : User) (job : Job) : Option Bool :=
  let roles := get_user_roles actor
  if "admin" ∈ roles then some true
  else if "ortsvorsteher" ∈ roles then
    match users.find? (fun u => u.id = job.user_id) with
    | none => none
    | some ju => some (decide (ju.ortsteil ∈ get_user_villages actor))
  else some false

/-- Permission block shared by `routes_jobs.update_job` and
`routes_jobs.delete_job` (the two Python functions contain the identical
`can_edit` / `can_delete` chain): `admin`; or `ortsvorsteher` over the
owner's district; or the owning worker while the status is not
`freigegeben`. -/
def can_edit? (users : List User) (actor : User) (job : Job) : Option Bool :=
  let roles := get_user_roles actor
  if "admin" ∈ roles then some true
  else if "ortsvorsteher" ∈ roles then
    match users.find? (fun u => u.id = job.user_id) with
    | none => none
    | some ju =>
      if ju.ortsteil ∈ get_user_villages actor then some true
      else some (decide (job.user_id = actor.id ∧ job.status ≠ "freigegeben"))
  else some (decide (job.user_id = actor.id ∧ job.status ≠ "freigegeben"))

/-- The `UPDATE` of `routes_jobs.approve_jobs`. -/
def approveStamp (actor : User) (now : Nat) (j : Job) : Job :=
  { j with status := "freigegeben", checked_by := some actor.id,
           checked_time := some now }

/-- The `UPDATE` of `routes_jobs.reject_jobs`. -/
def rejectStamp (actor : User) (now : Nat) (reason : String) (j : Job) : Job :=
  { j with status := "abgelehnt", rejection_reason := some reason,
           checked_by := some actor.id, checked_time := some now }

/-- The per-id loop shared by `approve_jobs` and `reject_jobs` (the Python
bodies differ only in the `UPDATE ... SET` clause, here `stamp`): look up
the job (missing ids are skipped), check the scope, and update+count only
when the status is still `erfasst`.  `none` models the uncaught owner
lookup `TypeError`, which aborts the whole call with rollback. -/
def jobs_review_loop (actor : User) (stamp : Job → Job) :
    List Nat → DB → Nat → Option (DB × Nat)
  | [], db, count => some (db, count)
  | jid :: rest, db, count =>
    match db.jobs.find? (fun j => j.id = jid) with
    | none => jobs_review_loop actor stamp rest db count
    | some job =>
      match can_check? db.users actor job with
      | none => none
      | some ok =>
        if ok ∧ job.status = "erfasst" then
          jobs_review_loop actor stamp rest
            { db with jobs := db.jobs.map fun j => if j.id = jid then stamp j else j }
            (count + 1)
        else jobs_review_loop actor stamp rest db count

/-- `routes_jobs.approve_jobs`: batch approve.  403 unless the actor holds
`admin` or `ortsvorsteher`; 400 on an empty id list; otherwise the loop
above with the `freigegeben` stamp; an exception rolls back to the
original store. -/
def approve_jobs (db : DB) (actor : User) (now : Nat) (job_ids : List Nat) : DB × Res :=
  let roles := get_user_roles actor
  if ¬("admin" ∈ roles ∨ "ortsvorsteher" ∈ roles) then (db, .permission)
  else if job_ids = [] then (db, .validation)
  else
    match jobs_review_loop actor (approveStamp actor now) job_ids db 0 with
    | none => (db, .error)
    | some (db', c) => (db', .ok c)

/-- `routes_jobs.reject_jobs`: batch reject.  The reason defaults to `""`
and is not validated; eligible entries get status `abgelehnt`, the stored
reason, and the reviewer stamp. -/
def reject_jobs (db : DB) (actor : User) (now : Nat) (job_ids : List Nat)
    (rejection_reason : String) : DB × Res :=
  let roles := get_user_roles actor
  if ¬("admin" ∈ roles ∨ "ortsvorsteher" ∈ roles) then (db, .permission)
  else if job_ids = [] then (db, .validation)
  else
    match jobs_review_loop actor (rejectStamp actor now rejection_reason) job_ids db 0 with
    | none => (db, .error)
    | some (db', c) => (db', .ok c)

/-- JSON payload of `routes_jobs.create_job`; `none` = field absent.
`user_id` defaults to the actor (`data.get('user_id', g.user['id'])`),
`arbeitsstunden` is modelled as the already-parsed number `float(...)`
yields, `machine_used` is the value after the `'' -> None` normalization,
and `status` is `data.get('status', 'erfasst')`. -/
structure CreatePayload where
  user_id : Option Nat
  datum : Option String
  arbeitsstunden : Option Rat
  taetigkeitsbeschreibung : Option String
  machine_used : Option Nat
  status : Option String
  deriving Repr, DecidableEq

/-- `routes_jobs.create_job`: 403 when creating for another user without
`admin`/`ortsvorsteher`; a missing required field raises `KeyError`,
caught as a 400 with rollback; on success the row is inserted with the
payload's fields — including a payload-supplied `status` — and the
reviewer columns at their `NULL` defaults. -/
def create_job (db : DB) (actor : User) (now : Nat) (p : CreatePayload) : DB × Res :=
  let roles := get_user_roles actor
  let uid := p.user_id.getD actor.id
  if uid ≠ actor.id ∧ ¬("admin" ∈ roles ∨ "ortsvorsteher" ∈ roles) then (db, .permission)
  else
    match p.datum, p.arbeitsstunden, p.taetigkeitsbeschreibung with
    | some d, some h, some b =>
      ({ db with
         jobs := db.jobs ++
           [{ id := db.nextId, user_id := uid, datum := d, arbeitsstunden := h,
              taetigkeitsbeschreibung := b, machine_used := p.machine_used,
              status := p.status.getD "erfasst", rejection_reason := none,
              checked_time := none, checked_by := none, created_at := now }],
         nextId := db.nextId + 1 }, .ok db.nextId)
    | _, _, _ => (db, .error)

/-- JSON patch of `routes_jobs.update_job`; `none` = field absent.
`machine_used` carries the value after `'' -> None` normalization. -/
structure UpdatePatch where
  datum : Option String
  user_id : Option Nat
  taetigkeitsbeschreibung : Option String
  arbeitsstunden : Option Rat
  machine_used : Option (Option Nat)
  status : Option String
  deriving Repr, DecidableEq

/-- Field application of `routes_jobs.update_job`: each supplied field is
added to the `SET` list; `user_id` and `status` only for
`admin`/`ortsvorsteher`, and a `status` of `freigegeben`/`abgelehnt` also
stamps `checked_by`/`checked_time`. -/
def updateApply (roles : List String) (actor : User) (now : Nat)
    (p : UpdatePatch) (j : Job) : Job :=
  let j := match p.datum with
    | some d => { j with datum := d }
    | none => j
  let j := match p.user_id with
    | some u =>
      if "admin" ∈ roles ∨ "ortsvorsteher" ∈ roles then { j with user_id := u } else j
    | none => j
  let j := match p.taetigkeitsbeschreibung with
    | some b => { j with taetigkeitsbeschreibung := b }
    | none => j
  let j := match p.arbeitsstunden with
    | some h => { j with arbeitsstunden := h }
    | none => j
  let j := match p.machine_used with
    | some m => { j with machine_used := m }
    | none => j
  match p.status with
  | some st =>
    if "admin" ∈ roles ∨ "ortsvorsteher" ∈ roles then
      if st = "freigegeben" ∨ st = "abgelehnt" then
        { j with status := st, checked_by := some actor.id, checked_time := some now }
      else { j with status := st }
    else j
  | none => j

/-- Whether `routes_jobs.update_job` collects at least one `SET` entry
(otherwise it answers 400 `Keine Änderungen`). -/
def updateNonempty (roles : List String) (p : UpdatePatch) : Bool :=
  p.datum.isSome ||
    (p.user_id.isSome && decide ("admin" ∈ roles ∨ "ortsvorsteher" ∈ roles)) ||
    p.taetigkeitsbeschreibung.isSome || p.arbeitsstunden.isSome ||
    p.machine_used.isSome ||
    (p.status.isSome && decide ("admin" ∈ roles ∨ "ortsvorsteher" ∈ roles))

/-- `routes_jobs.update_job`: 404 for an unknown id, the `can_edit` gate,
400 when no field survives the role filters, else the dynamic `UPDATE`. -/
def update_job (db : DB) (actor : User) (now : Nat) (job_id : Option Nat)
    (p : UpdatePatch) : DB × Res :=
  match job_id with
  | none => (db, .notFound)
  | some jid =>
    match db.jobs.find? (fun j => j.id = jid) with
    | none => (db, .notFound)
    | some job =>
      let roles := get_user_roles actor
      match can_edit? db.users actor job with
      | none => (db, .error)
      | some ce =>
        if ¬ ce then (db, .permission)
        else if ¬ updateNonempty roles p then (db, .validation)
        else
          ({ db with
             jobs := db.jobs.map fun j =>
               if j.id = jid then updateApply roles actor now p j else j }, .done)

/-- `routes_jobs.delete_job`: 404 for an unknown id, the same permission
chain as update (`can_edit?`), then `DELETE ... WHERE id = ?`. -/
def delete_job (db : DB) (actor : User) (job_id : Option Nat) : DB × Res :=
  match job_id with
  | none => (db, .notFound)
  | some jid =>
    match db.jobs.find? (fun j => j.id = jid) with
    | none => (db, .notFound)
    | some job =>
      match can_edit? db.users actor job with
      | none => (db, .error)
      | some cd =>
        if cd then
          ({ db with jobs := db.jobs.filter fun j => ¬(j.id = jid) }, .done)
        else (db, .permission)

/-- Role-based `WHERE` clause of `routes_jobs.jobs`: `admin` first (no
restriction), then `ortsvorsteher` (owner district in villages), else own
entries only. -/
def jobs_rolescope (actor : User) (owner : User) (j : Job) : Bool :=
  let roles := get_user_roles actor
  if "admin" ∈ roles then true
  else if "ortsvorsteher" ∈ roles then decide (owner.ortsteil ∈ get_user_villages actor)
  else decide (j.user_id = actor.id)

/-- `routes_jobs.jobs` listing with no filter parameters supplied (each
optional filter adds a conjunct only when present); the `JOIN user` drops
entries whose owner row is missing; ordering is not modelled. -/
def jobs_listing (db : DB) (actor : User) : List Job :=
  db.jobs.filter fun j =>
    match db.users.find? (fun u => u.id = j.user_id) with
    | none => false
    | some owner => jobs_rolescope actor owner j

/-! ### `routes/jobs.py` blueprint (second variant, `jobs` table with
`date`/`work_comment`/`machine_id` columns) -/

structure JobR where
  id : Nat
  user_id : Nat
  date : String
  time_start : Option String
  time_end : Option String
  pause_hours : Rat
  work_hours : Option Rat
  work_comment : String
  machine_id : Option Nat
  machine_hours : Rat
  status : String
  rejection_reason : Option String
  checked_time : Option Nat
  checked_by : Option Nat
  created_at : Nat
  deriving Repr, DecidableEq

structure DBR where
  jobs : List JobR
  nextId : Nat
  deriving Repr, DecidableEq

/-- JSON patch of `routes/jobs.update_job`; `none` = field absent.  For
`pause_hours`/`machine_hours` a present `null` becomes `0`
(`float(value) if value is not None else 0`); for `machine_id` a falsy
value becomes `NULL`. -/
structure PatchR where
  user_id : Option Nat
  date : Option String
  time_start : Option String
  time_end : Option String
  pause_hours : Option (Option Rat)
  work_hours : Option (Option Rat)
  work_comment : Option String
  machine_id : Option (Option Nat)
  machine_hours : Option (Option Rat)
  status : Option String
  deriving Repr, DecidableEq

/-- Field application of `routes/jobs.update_job`: every supplied field in
`update_fields` is applied — including `status`, with no role gate and no
reviewer stamping in this variant. -/
def updateApplyR (p : PatchR) (j : JobR) : JobR :=
  let j := match p.user_id with
    | some u => { j with user_id := u }
    | none => j
  let j := match p.date with
    | some d => { j with date := d }
    | none => j
  let j := match p.time_start with
    | some t => { j with time_start := some t }
    | none => j
  let j := match p.time_end with
    | some t => { j with time_end := some t }
    | none => j
  let j := match p.pause_hours with
    | some v => { j with pause_hours := v.getD 0 }
    | none => j
  let j := match p.work_hours with
    | some v => { j with work_hours := v }
    | none => j
  let j := match p.work_comment with
    | some c => { j with work_comment := c }
    | none => j
  let j := match p.machine_id with
    | some m => { j with machine_id := m }
    | none => j
  let j := match p.machine_hours with
    | some v => { j with machine_hours := v.getD 0 }
    | none => j
  match p.status with
  | some st => { j with status := st }
  | none => j

/-- Whether the patch supplies at least one field (else 400). -/
def patchRNonempty (p : PatchR) : Bool :=
  p.user_id.isSome || p.date.isSome || p.time_start.isSome || p.time_end.isSome ||
    p.pause_hours.isSome || p.work_hours.isSome || p.work_comment.isSome ||
    p.machine_id.isSome || p.machine_hours.isSome || p.status.isSome

/-- `routes/jobs.update_job`: 400 without an id, 404 for an unknown id;
entries in status `genehmigt`/`abgelehnt` are editable by `admin` only,
otherwise a non-owner needs `admin`/`ortsvorsteher`; every supplied field
is then applied, `status` included, with no role gate on `status`. -/
def update_jobR (db : DBR) (actor : User) (job_id : Option Nat) (p : PatchR) : DBR × Res :=
  match job_id with
  | none => (db, .validation)
  | some jid =>
    match db.jobs.find? (fun j => j.id = jid) with
    | none => (db, .notFound)
    | some job =>
      let roles := get_user_roles actor
      let apply : DBR × Res :=
        if ¬ patchRNonempty p then (db, .validation)
        else
          ({ db with
             jobs := db.jobs.map fun j => if j.id = jid then updateApplyR p j else j },
           .done)
      if job.status = "genehmigt" ∨ job.status = "abgelehnt" then
        if "admin" ∉ roles then (db, .permission) else apply
      else if job.user_id ≠ actor.id ∧ ¬("admin" ∈ roles ∨ "ortsvorsteher" ∈ roles) then
        (db, .permission)
      else apply

/-- `routes/jobs.delete_job`: no permission or existence check at all —
`DELETE ... WHERE id = ?` and report success (a missing `job_id` makes the
`WHERE` match nothing). -/
def delete_jobR (db : DBR) (job_id : Option Nat) : DBR × Res :=
  match job_id with
  | none => (db, .done)
  | some jid => ({ db with jobs := db.jobs.filter fun j => ¬(j.id = jid) }, .done)

/-- JSON payload of `routes/jobs.create_job`; `none` = field absent.
`user_id` defaults to the actor (`data.get('user_id', g.user['id'])`),
`pause_hours`/`machine_hours` default to `0` when absent
(`float(data.get(..., 0))`), hour values are modelled as the already-parsed
numbers `float(...)` yields, and `status` is `data.get('status',
'erfasst')`. -/
structure CreatePayloadR where
  user_id : Option Nat
  date : Option String
  time_start : Option String
  time_end : Option String
  pause_hours : Option Rat
  work_hours : Option Rat
  work_comment : Option String
  machine_id : Option Nat
  machine_hours : Option Rat
  status : Option String
  deriving Repr, DecidableEq

/-- `routes/jobs.create_job`: 403 when creating for another user without
`admin`/`ortsvorsteher`.  A missing `work_comment` raises `KeyError`, and
a missing `date` inserts `NULL` into the entry table's date column, which
is `NOT NULL` in the entry schema (the `jobs` DDL file itself is not under
the source; the spec requires a valid date) — both are caught as a 400
with rollback.  On success the dynamic `INSERT` names only the payload
columns — `status` included, defaulting to `erfasst` — so
`rejection_reason`/`checked_time`/`checked_by` take their `NULL` defaults
and `created_at` its timestamp default. -/
def create_jobR (db : DBR) (actor : User) (now : Nat) (p : CreatePayloadR) : DBR × Res :=
  let roles := get_user_roles actor
  let uid := p.user_id.getD actor.id
  if uid ≠ actor.id ∧ ¬("admin" ∈ roles ∨ "ortsvorsteher" ∈ roles) then (db, .permission)
  else
    match p.date, p.work_comment with
    | some d, some c =>
      ({ db with
         jobs := db.jobs ++
           [{ id := db.nextId, user_id := uid, date := d, time_start := p.time_start,
              time_end := p.time_end, pause_hours := p.pause_hours.getD 0,
              work_hours := p.work_hours, work_comment := c,
              machine_id := p.machine_id, machine_hours := p.machine_hours.getD 0,
              status := p.status.getD "erfasst", rejection_reason := none,
              checked_time := none, checked_by := none, created_at := now }],
         nextId := db.nextId + 1 }, .ok db.nextId)
    | _, _ => (db, .error)

/-! ### Spec-side visibility rule (for the refinement comparison of C8) -/

/-- Modelled from the spec: the §4.2 visibility rule "evaluated by
highest-privilege role found for the user (administrator > administration >
supervisor > worker)": `admin`/`verwaltung` see every entry, else
`ortsvorsteher` sees the own district, else only own entries. -/
def spec_highest_scope (actor : User) (owner : User) (j : Job) : Bool :=
  let roles := get_user_roles actor
  if "admin" ∈ roles ∨ "verwaltung" ∈ roles then true
  else if "ortsvorsteher" ∈ roles then decide (owner.ortsteil = actor.ortsteil)
  else decide (j.user_id = actor.id)

/-- Listing under the spec's highest-privilege scope, over the same joined
store as `einsaetze_liste`. -/
def spec_scope_listing (db : DB) (actor : User) : List Job :=
  db.jobs.filter fun j =>
    match db.users.find? (fun u => u.id = j.user_id) with
    | none => false
    | some owner => spec_highest_scope actor owner j

/-! ### Read/write decomposition of the `approve_jobs` loop body (for the
concurrency claim): the body is a `SELECT` of the job and its owner plus
the eligibility decision, followed by an unconditional
`UPDATE ... WHERE id = ?`.  Nothing re-checks the status at write time. -/

/-- The read half of one `approve_jobs` iteration: `SELECT` the job and its
owner and compute `can_approve and status == 'erfasst'`; `none` is the
owner-lookup `TypeError`. -/
def approve_step_read (db : DB) (actor : User) (jid : Nat) : Option Bool :=
  match db.jobs.find? (fun j => j.id = jid) with
  | none => some false
  | some job =>
    match can_check? db.users actor job with
    | none => none
    | some ok => some (ok && decide (job.status = "erfasst"))

/-- The write half of one `approve_jobs` iteration: when the previously
read decision was positive, run the `UPDATE` (no status condition in its
`WHERE` clause) and count the id. -/
def approve_step_write (db : DB) (actor : User) (now : Nat) (jid : Nat)
    (d : Bool) : DB × Nat :=
  if d then
    ({ db with jobs := db.jobs.map fun j => if j.id = jid then approveStamp actor now j else j },
     1)
  else (db, 0)

/-! ### Concrete fixtures -/

def uAdmin : User := { id := 10, ortsteil := "Verwaltung", roles := "admin" }

def uVerw : User := { id := 12, ortsteil := "Verwaltung", roles := "verwaltung" }

def uOV : User := { id := 11, ortsteil := "Krenkingen", roles := "ortsvorsteher" }

def uDual : User := { id := 1, ortsteil := "Krenkingen", roles := "wegewart,ortsvorsteher" }

def uW2 : User := { id := 2, ortsteil := "Krenkingen", roles := "wegewart" }

/-- A work entry with the given id, owner and status and fixed remaining
fields. -/
def byJob (i uid : Nat) (st : String) : Job :=
  { id := i, user_id := uid, datum := "2024-03-01", arbeitsstunden := 4,
    taetigkeitsbeschreibung := "Wegpflege", machine_used := none, status := st,
    rejection_reason := none, checked_time := none, checked_by := none,
    created_at := 0 }

def dbRejected : DB :=
  { users := [uOV, uW2], jobs := [byJob 1 2 "abgelehnt"], nextId := 2 }

def dbMixed : DB :=
  { users := [uOV, uW2], jobs := [byJob 1 2 "erfasst", byJob 2 2 "freigegeben_ov"],
    nextId := 3 }

def dbSubmitted : DB :=
  { users := [uAdmin, uOV, uW2], jobs := [byJob 1 2 "erfasst"], nextId := 2 }

def dbOwnRejected : DB :=
  { users := [uAdmin, uOV, uW2], jobs := [byJob 1 2 "abgelehnt"], nextId := 2 }

def dbDualRole : DB :=
  { users := [uDual, uW2], jobs := [byJob 5 2 "erfasst"], nextId := 6 }

def jrSubmitted : JobR :=
  { id := 1, user_id := 2, date := "2024-03-01", time_start := none, time_end := none,
    pause_hours := 0, work_hours := some 4, work_comment := "Wegpflege",
    machine_id := none, machine_hours := 0, status := "erfasst",
    rejection_reason := none, checked_time := none, checked_by := none, created_at := 0 }

def statusOnlyPatchR : PatchR :=
  { user_id := none, date := none, time_start := none, time_end := none,
    pause_hours := none, work_hours := none, work_comment := none,
    machine_id := none, machine_hours := none, status := some "freigegeben" }

def statusPayload : CreatePayload :=
  { user_id := none, datum := some "2024-03-01", arbeitsstunden := some 4,
    taetigkeitsbeschreibung := some "Wegpflege", machine_used := none,
    status := some "freigegeben" }

def statusPayloadR : CreatePayloadR :=
  { user_id := none, date := some "2024-03-01", time_start := none, time_end := none,
    pause_hours := none, work_hours := some 4, work_comment := some "Wegpflege",
    machine_id := none, machine_hours := none, status := some "freigegeben" }

/-- A concrete instantiation of the abstract hours parser (Python
`float(...)`) used by witnesses: nonnegative integer strings. -/
def ratParse (s : String) : Option Rat :=
  (pyInt? s).map fun n => (n : Rat)

/-! ### Derived notions used by the theorems -/

/-- How one entry may change under a status-gated review with update
`stamp`: unchanged, or stamped from status `erfasst`. -/
def reviewed (stamp : Job → Job) (j j' : Job) : Prop :=
  j' = j ∨ (j.status = "erfasst" ∧ j' = stamp j)

/-- The scope decision of `can_check?` when the owner lookup cannot
raise. -/
def canCheckB (users : List User) (actor : User) (job : Job) : Bool :=
  (can_check? users actor job).getD false

/-- Whether one requested id is acted on by the batch review: it resolves
to a stored job that is in the actor's scope and still `erfasst`. -/
def eligibleB (db : DB) (actor : User) (i : Nat) : Bool :=
  match db.jobs.find? (fun j => j.id = i) with
  | none => false
  | some j => canCheckB db.users actor j && decide (j.status = "erfasst")

/-- A creation row `(datum, arbeitszeit, bemerkung)` that `einsatz_neu`
inserts: all three fields non-empty and the hours parse. -/
def validRow (parse : String → Option Rat) (r : String × String × String) : Bool :=
  !(decide (r.1 = "") || decide (r.2.1 = "") || decide (r.2.2 = "")) && (parse r.2.1).isSome

/-- The entries `einsatz_neu` inserts for a row list, given the first free
id: one entry per valid row, in order, ids consecutive. -/
def insertedRows (uid now : Nat) (parse : String → Option Rat) :
    Nat → List (String × String × String) → List Job
  | _, [] => []
  | nid, (d, a, b) :: rest =>
    if d = "" ∨ a = "" ∨ b = "" then insertedRows uid now parse nid rest
    else
      match parse a with
      | none => insertedRows uid now parse nid rest
      | some h => neuEntry nid uid d h b now :: insertedRows uid now parse (nid + 1) rest

/-! ### Helper lemmas -/

theorem reviewed_refl (stamp : Job → Job) (j : Job) : reviewed stamp j j :=
  Or.inl rfl

theorem reviewed_trans {stamp : Job → Job} (hs : ∀ j, (stamp j).status ≠ "erfasst")
    {a b c : Job} (h1 : reviewed stamp a b) (h2 : reviewed stamp b c) :
    reviewed stamp a c := by
  rcases h1 with rfl | ⟨ha, rfl⟩
  · exact h2
  · rcases h2 with rfl | ⟨hb, rfl⟩
    · exact Or.inr ⟨ha, rfl⟩
    · exact absurd hb (hs a)

theorem forall2_trans {α : Type} {R : α → α → Prop}
    (hR : ∀ a b c, R a b → R b c → R a c) :
    ∀ {l₁ l₂ l₃ : List α}, List.Forall₂ R l₁ l₂ → List.Forall₂ R l₂ l₃ →
      List.Forall₂ R l₁ l₃ := by
  intro l₁ l₂ l₃ h12
  induction h12 generalizing l₃ with
  | nil => intro h; exact h
  | cons hab _ ih =>
    intro h23
    cases h23 with
    | cons hbc h' => exact List.Forall₂.cons (hR _ _ _ hab hbc) (ih h')

theorem forall2_map_self {α : Type} {R : α → α → Prop} {g : α → α} :
    ∀ {l : List α}, (∀ a ∈ l, R a (g a)) → List.Forall₂ R l (l.map g) := by
  intro l h
  induction l with
  | nil => exact .nil
  | cons a t ih =>
    exact .cons (h a (by simp)) (ih fun x hx => h x (by simp [hx]))

theorem forall2_mem_right {α : Type} {R : α → α → Prop} :
    ∀ {l l' : List α}, List.Forall₂ R l l' → ∀ b ∈ l', ∃ a ∈ l, R a b := by
  intro l l' h
  induction h with
  | nil => intro b hb; cases hb
  | cons hab _ ih =>
    intro b hb
    rcases List.mem_cons.mp hb with rfl | hb'
    · exact ⟨_, by simp, hab⟩
    · obtain ⟨a, ha, hr⟩ := ih b hb'
      exact ⟨a, by simp [ha], hr⟩

/-- In a store whose job ids are unique (`PRIMARY KEY`), two stored jobs
with the same id are the same row. -/
theorem job_id_unique {l : List Job} (hn : (l.map Job.id).Nodup)
    {a b : Job} (ha : a ∈ l) (hb : b ∈ l) (h : a.id = b.id) : a = b :=
  List.inj_on_of_nodup_map hn ha hb h

/-- A per-id update that only touches rows with id `i₀` and preserves ids
does not change which row a lookup for a different id finds. -/
theorem find?_id_map_stable {g : Job → Job} {i₀ : Nat}
    (hid : ∀ j, (g j).id = j.id) (hfix : ∀ j, j.id ≠ i₀ → g j = j)
    {i : Nat} (hne : i ≠ i₀) :
    ∀ (l : List Job),
      (l.map g).find? (fun j => j.id = i) = l.find? (fun j => j.id = i) := by
  intro l
  induction l with
  | nil => rfl
  | cons a t ih =>
    by_cases h : a.id = i
    · have hfa : g a = a := hfix a (by rw [h]; exact hne)
      rw [List.map_cons, List.find?_cons_of_pos, List.find?_cons_of_pos]
      · rw [hfa]
      · simp [h]
      · simp [hfa, h]
    · rw [List.map_cons, List.find?_cons_of_neg, List.find?_cons_of_neg]
      · exact ih
      · simp [h]
      · simp [hid a, h]

/-- The status-gated review loop only maps jobs, leaving `users`/`nextId`
alone, and relates every surviving row to its original by `reviewed`. -/
theorem jobs_review_loop_reviewed {actor : User} {stamp : Job → Job}
    (hid : ∀ j, (stamp j).id = j.id) (hs : ∀ j, (stamp j).status ≠ "erfasst") :
    ∀ (ids : List Nat) (db : DB) (count : Nat) (db' : DB) (c' : Nat),
      jobs_review_loop actor stamp ids db count = some (db', c') →
      (db.jobs.map Job.id).Nodup →
      List.Forall₂ (reviewed stamp) db.jobs db'.jobs := by
  intro ids
  induction ids with
  | nil =>
    intro db count db' c' h _
    simp only [jobs_review_loop, Option.some.injEq, Prod.mk.injEq] at h
    rw [← h.1]
    exact List.forall₂_same.mpr fun j _ => reviewed_refl stamp j
  | cons jid rest ih =>
    intro db count db' c' h hn
    rw [jobs_review_loop] at h
    cases hf : db.jobs.find? (fun j => j.id = jid) with
    | none =>
      rw [hf] at h
      exact ih db count db' c' h hn
    | some job =>
      simp only [hf] at h
      cases hc : can_check? db.users actor job with
      | none =>
        simp only [hc] at h
        exact Option.noConfusion h
      | some ok =>
        simp only [hc] at h
        have hjmem : job ∈ db.jobs := List.mem_of_find?_eq_some hf
        have hjid : job.id = jid := by
          have := List.find?_some hf
          simpa using this
        by_cases hcond : (ok = true ∧ job.status = "erfasst")
        · rw [if_pos hcond] at h
          set g : Job → Job := fun j => if j.id = jid then stamp j else j with hg
          have hgid : ∀ j, (g j).id = j.id := by
            intro j
            by_cases hj : j.id = jid <;> simp [hg, hj, hid]
          have hstep : List.Forall₂ (reviewed stamp) db.jobs (db.jobs.map g) := by
            refine forall2_map_self fun j hjm => ?_
            by_cases hj : j.id = jid
            · have : j = job := job_id_unique hn hjm hjmem (by rw [hj, hjid])
              subst this
              exact Or.inr ⟨hcond.2, by simp [hg, hj]⟩
            · exact Or.inl (by simp [hg, hj])
          have hn' : ((db.jobs.map g).map Job.id).Nodup := by
            rw [List.map_map]
            have : (Job.id ∘ g) = Job.id := funext fun j => hgid j
            rw [this]
            exact hn
          have hrest := ih _ _ _ _ h hn'
          exact @forall2_trans Job (reviewed stamp)
            (fun a b c hab hbc => reviewed_trans hs hab hbc) _ _ _ hstep hrest
        · rw [if_neg hcond] at h
          exact ih db count db' c' h hn

theorem has_role_iff {roles s : String} : has_role roles s = true ↔ s ∈ pyRoles roles := by
  unfold has_role pyRoles
  by_cases h : roles = "" <;> simp [h]

theorem rolle_required_of_mem {actor : User} {allowed : List String} {s : String}
    (hmem : s ∈ pyRoles actor.roles) (hall : s ∈ allowed) :
    rolle_required actor allowed = true := by
  unfold rolle_required
  rw [List.any_eq_true]
  exact ⟨s, hmem, by simp [hall]⟩

theorem approveStamp_id (actor : User) (now : Nat) (j : Job) :
    (approveStamp actor now j).id = j.id := rfl

theorem approveStamp_not_erfasst (actor : User) (now : Nat) (j : Job) :
    (approveStamp actor now j).status ≠ "erfasst" := by
  simp [approveStamp]

theorem rejectStamp_id (actor : User) (now : Nat) (reason : String) (j : Job) :
    (rejectStamp actor now reason j).id = j.id := rfl

theorem rejectStamp_not_erfasst (actor : User) (now : Nat) (reason : String) (j : Job) :
    (rejectStamp actor now reason j).status ≠ "erfasst" := by
  simp [rejectStamp]

theorem approve_jobs_reviewed (db : DB) (actor : User) (now : Nat) (ids : List Nat)
    (hn : (db.jobs.map Job.id).Nodup) :
    List.Forall₂ (reviewed (approveStamp actor now)) db.jobs
      (approve_jobs db actor now ids).1.jobs := by
  have hrefl : ∀ (l : List Job), List.Forall₂ (reviewed (approveStamp actor now)) l l :=
    fun l => List.forall₂_same.mpr fun j _ => reviewed_refl _ j
  unfold approve_jobs
  by_cases h1 : ¬("admin" ∈ get_user_roles actor ∨ "ortsvorsteher" ∈ get_user_roles actor)
  · rw [if_pos h1]; exact hrefl db.jobs
  · rw [if_neg h1]
    by_cases h2 : ids = []
    · rw [if_pos h2]; exact hrefl db.jobs
    · rw [if_neg h2]
      cases hl : jobs_review_loop actor (approveStamp actor now) ids db 0 with
      | none => simp only [hl]; exact hrefl db.jobs
      | some p =>
        obtain ⟨db', c⟩ := p
        simp only [hl]
        exact jobs_review_loop_reviewed (approveStamp_id actor now)
          (approveStamp_not_erfasst actor now) ids db 0 db' c hl hn

theorem reject_jobs_reviewed (db : DB) (actor : User) (now : Nat) (ids : List Nat)
    (reason : String) (hn : (db.jobs.map Job.id).Nodup) :
    List.Forall₂ (reviewed (rejectStamp actor now reason)) db.jobs
      (reject_jobs db actor now ids reason).1.jobs := by
  have hrefl : ∀ (l : List Job), List.Forall₂ (reviewed (rejectStamp actor now reason)) l l :=
    fun l => List.forall₂_same.mpr fun j _ => reviewed_refl _ j
  unfold reject_jobs
  by_cases h1 : ¬("admin" ∈ get_user_roles actor ∨ "ortsvorsteher" ∈ get_user_roles actor)
  · rw [if_pos h1]; exact hrefl db.jobs
  · rw [if_neg h1]
    by_cases h2 : ids = []
    · rw [if_pos h2]; exact hrefl db.jobs
    · rw [if_neg h2]
      cases hl : jobs_review_loop actor (rejectStamp actor now reason) ids db 0 with
      | none => simp only [hl]; exact hrefl db.jobs
      | some p =>
        obtain ⟨db', c⟩ := p
        simp only [hl]
        exact jobs_review_loop_reviewed (rejectStamp_id actor now reason)
          (rejectStamp_not_erfasst actor now reason) ids db 0 db' c hl hn

/-- C1 counterexample: the claim says `rejected` is absorbing under every
operation, but `einsatz_freigeben` carries no status condition: applied by
a supervisor to an entry in status `abgelehnt`, the entry moves to
`freigegeben_ov`. -/
theorem C1_rejected_not_absorbing :
    dbRejected.jobs.map Job.status = ["abgelehnt"] ∧
    (einsatz_freigeben dbRejected uOV 5 1).jobs.map Job.status = ["freigegeben_ov"] := by
  decide

/-- C2 counterexample: the claim says every batch-approve call transitions
only the `submitted` ids and returns that subset's size, but
`einsaetze_massenfreigabe` on a mix of one `erfasst` and one
`freigegeben_ov` entry touches both (both get the reviewer stamp) and
returns 2, not 1. -/
theorem C2_massenfreigabe_counts_all :
    (einsaetze_massenfreigabe dbMixed uOV 5 ["1", "2"]).2 = 2 ∧
    ((einsaetze_massenfreigabe dbMixed uOV 5 ["1", "2"]).1.jobs.map Job.checked_by) =
      [some 11, some 11] := by
  decide

/-- C3 counterexample: the claim says an administrator's approve bills the
entry directly, but `approve_jobs` invoked by the `admin` actor on a
`submitted` entry sets status `freigegeben` (approved), not
`abgerechnet`. -/
theorem C3_admin_approve_not_billed :
    (approve_jobs dbSubmitted uAdmin 5 [1]).2 = Res.ok 1 ∧
    ((approve_jobs dbSubmitted uAdmin 5 [1]).1.jobs.map Job.status) = ["freigegeben"] := by
  decide

/-- C4 counterexample: the claim says a reject with an empty reason fails
with Validation and changes nothing, but `reject_jobs` with reason `""`
succeeds with count 1 and moves the entry to `abgelehnt`, storing the
empty reason. -/
theorem C4_empty_reason_reject_succeeds :
    (reject_jobs dbSubmitted uAdmin 7 [1] "").2 = Res.ok 1 ∧
    ((reject_jobs dbSubmitted uAdmin 7 [1] "").1.jobs.map Job.status) = ["abgelehnt"] ∧
    ((reject_jobs dbSubmitted uAdmin 7 [1] "").1.jobs.map Job.rejection_reason) =
      [some ""] := by
  decide

/-- C5 counterexample: the claim says a created entry has status
`submitted` regardless of the payload, but `create_job` passes a
payload-supplied `status` through: with `status := "freigegeben"` in the
payload the new entry is created already approved. -/
theorem C5_payload_status_passthrough :
    (create_job { users := [uW2], jobs := [], nextId := 1 } uW2 5 statusPayload).2 =
      Res.ok 1 ∧
    ((create_job { users := [uW2], jobs := [], nextId := 1 } uW2 5 statusPayload).1.jobs.map
        Job.status) = ["freigegeben"] := by
  decide

/-- C6 counterexample: the claim says the owning worker cannot change
`status` through the update path, but `routes/jobs.update_job` applies a
supplied `status` for any permitted caller: the worker-only owner of a
`submitted` entry sets it to `freigegeben`. -/
theorem C6_worker_sets_status_via_update :
    (update_jobR { jobs := [jrSubmitted], nextId := 2 } uW2 (some 1)
        statusOnlyPatchR).2 = Res.done ∧
    ((update_jobR { jobs := [jrSubmitted], nextId := 2 } uW2 (some 1)
        statusOnlyPatchR).1.jobs.map
        JobR.status) = ["freigegeben"] := by
  decide

/-- C7 counterexample: the claim says a worker-only actor can delete an
owned entry only while it is `submitted`, but `routes_jobs.delete_job`
blocks the owner only on status `freigegeben`: the owner deletes their own
`abgelehnt` entry successfully. -/
theorem C7_worker_deletes_rejected_entry :
    (delete_job dbOwnRejected uW2 (some 1)).2 = Res.done ∧
    (delete_job dbOwnRejected uW2 (some 1)).1.jobs = [] := by
  decide

/-- C8 counterexample: the claim says the broadest role wins, but
`einsaetze_liste` tests `wegewart` first: a user holding both `wegewart`
and `ortsvorsteher` gets the worker scope and does not see a same-district
entry owned by someone else, which the highest-privilege rule would
show. -/
theorem C8_dual_role_gets_worker_scope :
    einsaetze_liste dbDualRole uDual = [] ∧
    spec_scope_listing dbDualRole uDual = [byJob 5 2 "erfasst"] := by
  decide

/-- C9 exhibit: the status-gated check-then-set of `approve_jobs` is a
read (`SELECT` + eligibility decision) followed by an unconditional
write (`UPDATE ... WHERE id = ?`).  Interleaving two calls on the same
`submitted` entry as read-read-write-write, both reads decide `true`,
both writes apply, and both calls count the id — the second write
overwrites the first reviewer stamp. -/
theorem C9_read_then_write_race :
    approve_step_read dbSubmitted uAdmin 1 = some true ∧
    approve_step_read dbSubmitted uOV 1 = some true ∧
    (approve_step_write dbSubmitted uAdmin 5 1 true).2 = 1 ∧
    (approve_step_write (approve_step_write dbSubmitted uAdmin 5 1 true).1 uOV 6 1 true).2
      = 1 ∧
    ((approve_step_write (approve_step_write dbSubmitted uAdmin 5 1 true).1 uOV 6 1
          true).1.jobs.map Job.checked_by) = [some 11] := by
  decide

/-! ### Amended claim theorems -/

/-- C1 (amended): under the blueprint batch operations `approve_jobs` and
`reject_jobs` an entry's status changes only from `erfasst` (submitted) —
to `freigegeben` with the reviewer stamp resp. to `abgelehnt` with reason
and stamp — provided the stored job ids are unique; every other entry is
untouched.  (The claim's universal form fails because the `app.py`
single-entry and mass routes update the status unconditionally, see the
counterexample.) -/
theorem C1_blueprint_review_transitions :
    ∀ (db : DB) (actor : User) (now : Nat) (ids : List Nat) (reason : String),
      (db.jobs.map Job.id).Nodup →
      List.Forall₂ (reviewed (approveStamp actor now)) db.jobs
        (approve_jobs db actor now ids).1.jobs ∧
      List.Forall₂ (reviewed (rejectStamp actor now reason)) db.jobs
        (reject_jobs db actor now ids reason).1.jobs :=
  fun db actor now ids reason hn =>
    ⟨approve_jobs_reviewed db actor now ids hn,
     reject_jobs_reviewed db actor now ids reason hn⟩

theorem C1_blueprint_review_transitions_witness :
    List.Forall₂ (reviewed (approveStamp uOV 5)) dbSubmitted.jobs
      (approve_jobs dbSubmitted uOV 5 [1]).1.jobs ∧
    List.Forall₂ (reviewed (rejectStamp uOV 5 "zu spaet")) dbSubmitted.jobs
      (reject_jobs dbSubmitted uOV 5 [1] "zu spaet").1.jobs :=
  C1_blueprint_review_transitions dbSubmitted uOV 5 [1] "zu spaet" (by decide)

/-- C3 (amended): in `app.py einsatz_freigeben` an actor holding
`ortsvorsteher` sets `freigegeben_ov` (this branch is tested first, so it
also wins for an actor who additionally holds `admin`/`verwaltung`), while
an actor holding `admin` or `verwaltung` but not `ortsvorsteher` sets
`abgerechnet`; both branches stamp `checked_time`/`checked_by`.  In
`routes_jobs.approve_jobs` every entry the call changes ends in status
`freigegeben` — no approve path there bills directly, for admins
either. -/
theorem C3_approve_role_outcomes :
    (∀ (db : DB) (actor : User) (now eid : Nat),
        has_role actor.roles "ortsvorsteher" = true →
        einsatz_freigeben db actor now eid =
          { db with jobs := db.jobs.map fun j =>
              if j.id = eid then
                { j with status := "freigegeben_ov", checked_time := some now,
                         checked_by := some actor.id }
              else j }) ∧
    (∀ (db : DB) (actor : User) (now eid : Nat),
        has_role actor.roles "ortsvorsteher" = false →
        has_role actor.roles "admin" = true ∨ has_role actor.roles "verwaltung" = true →
        einsatz_freigeben db actor now eid =
          { db with jobs := db.jobs.map fun j =>
              if j.id = eid then
                { j with status := "abgerechnet", checked_time := some now,
                         checked_by := some actor.id }
              else j }) ∧
    (∀ (db : DB) (actor : User) (now : Nat) (ids : List Nat),
        (db.jobs.map Job.id).Nodup →
        ∀ j' ∈ (approve_jobs db actor now ids).1.jobs,
          j' ∈ db.jobs ∨ j'.status = "freigegeben") := by
  refine ⟨?_, ?_, ?_⟩
  · intro db actor now eid hov
    have hreq : rolle_required actor ["ortsvorsteher", "admin", "verwaltung"] = true :=
      rolle_required_of_mem (has_role_iff.mp hov) (by simp)
    unfold einsatz_freigeben
    rw [if_neg (by simp [hreq]), if_pos hov]
  · intro db actor now eid hov hadm
    have hreq : rolle_required actor ["ortsvorsteher", "admin", "verwaltung"] = true := by
      rcases hadm with h | h
      · exact rolle_required_of_mem (has_role_iff.mp h) (by simp)
      · exact rolle_required_of_mem (has_role_iff.mp h) (by simp)
    unfold einsatz_freigeben
    rw [if_neg (by simp [hreq]), if_neg (by simp [hov]), if_pos hadm]
  · intro db actor now ids hn j' hj'
    obtain ⟨a, _, hr⟩ :=
      forall2_mem_right (approve_jobs_reviewed db actor now ids hn) j' hj'
    rcases hr with rfl | ⟨_, rfl⟩
    · exact Or.inl (by assumption)
    · exact Or.inr rfl

theorem C3_approve_role_outcomes_witness :
    (einsatz_freigeben dbSubmitted uOV 5 1).jobs.map Job.status = ["freigegeben_ov"] ∧
    (einsatz_freigeben dbSubmitted uAdmin 5 1).jobs.map Job.status = ["abgerechnet"] ∧
    ∀ j' ∈ (approve_jobs dbSubmitted uAdmin 5 [1]).1.jobs,
      j' ∈ dbSubmitted.jobs ∨ j'.status = "freigegeben" := by
  obtain ⟨h1, h2, h3⟩ := C3_approve_role_outcomes
  refine ⟨?_, ?_, h3 dbSubmitted uAdmin 5 [1] (by decide)⟩
  · rw [h1 dbSubmitted uOV 5 1 (by decide)]; decide
  · rw [h2 dbSubmitted uAdmin 5 1 (by decide) (Or.inl (by decide))]; decide

/-- C4 (amended): only the mass-rejection route `einsaetze_massenablehnung`
refuses an empty reason, with a validation error and no state change; the
batch `reject_jobs` accepts any reason (see the counterexample) but does
stamp reviewer id and timestamp together with the stored reason on every
entry it changes; the single-entry `einsatz_ablehnen` stores only the
reason and never touches `checked_by`/`checked_time`. -/
theorem C4_reject_validation_and_stamping :
    (∀ (db : DB) (actor : User) (ids_str : String),
        rolle_required actor ["ortsvorsteher", "admin", "verwaltung"] = true →
        einsaetze_massenablehnung db actor ids_str "" = (db, Res.validation)) ∧
    (∀ (db : DB) (actor : User) (now : Nat) (ids : List Nat) (reason : String),
        (db.jobs.map Job.id).Nodup →
        List.Forall₂ (reviewed (rejectStamp actor now reason)) db.jobs
          (reject_jobs db actor now ids reason).1.jobs) ∧
    (∀ (db : DB) (actor : User) (grund : String) (eid : Nat),
        (einsatz_ablehnen db actor grund eid).jobs.map
            (fun j => (j.checked_by, j.checked_time)) =
          db.jobs.map fun j => (j.checked_by, j.checked_time)) := by
  refine ⟨?_, ?_, ?_⟩
  · intro db actor ids_str hreq
    unfold einsaetze_massenablehnung
    rw [if_neg (by simp [hreq]), if_pos (Or.inr rfl)]
  · intro db actor now ids reason hn
    exact reject_jobs_reviewed db actor now ids reason hn
  · intro db actor grund eid
    unfold einsatz_ablehnen
    by_cases hreq : rolle_required actor ["ortsvorsteher", "admin", "verwaltung"] = true
    · rw [if_neg (by simp [hreq])]
      rw [List.map_map]
      refine List.map_congr_left fun j _ => ?_
      by_cases hj : j.id = eid <;> simp [hj]
    · rw [if_pos (by simp [hreq])]

theorem C4_reject_validation_and_stamping_witness :
    einsaetze_massenablehnung dbSubmitted uOV "1" "" = (dbSubmitted, Res.validation) ∧
    List.Forall₂ (reviewed (rejectStamp uAdmin 7 "unklar")) dbSubmitted.jobs
      (reject_jobs dbSubmitted uAdmin 7 [1] "unklar").1.jobs ∧
    (einsatz_ablehnen dbSubmitted uOV "unklar" 1).jobs.map
        (fun j => (j.checked_by, j.checked_time)) =
      dbSubmitted.jobs.map fun j => (j.checked_by, j.checked_time) := by
  obtain ⟨h1, h2, h3⟩ := C4_reject_validation_and_stamping
  exact ⟨h1 dbSubmitted uOV "1" (by decide), h2 dbSubmitted uAdmin 7 [1] "unklar" (by decide),
    h3 dbSubmitted uOV "unklar" 1⟩

theorem isSome_eq_some_getD {o : Option Bool} (h : o.isSome) : o = some (o.getD false) := by
  cases o with
  | none => simp at h
  | some b => rfl

theorem can_check?_isSome {users : List User} {actor : User} {job : Job}
    (h : (users.find? (fun u => u.id = job.user_id)).isSome) :
    (can_check? users actor job).isSome := by
  unfold can_check?
  by_cases ha : "admin" ∈ get_user_roles actor
  · simp [ha]
  · by_cases ho : "ortsvorsteher" ∈ get_user_roles actor
    · simp only [if_neg ha, if_pos ho]
      cases hf : users.find? (fun u => u.id = job.user_id) with
      | none => rw [hf] at h; simp at h
      | some ju => simp
    · simp [ha, ho]

theorem can_check?_eq_canCheckB {users : List User} {actor : User} {job : Job}
    (h : (users.find? (fun u => u.id = job.user_id)).isSome) :
    can_check? users actor job = some (canCheckB users actor job) :=
  isSome_eq_some_getD (can_check?_isSome h)

/-- Full characterization of the status-gated review loop: with unique
request ids, unique stored job ids, and all owners present, the loop
stamps exactly the rows whose id is requested, in scope, and still
`erfasst`, and counts exactly the eligible ids. -/
theorem jobs_review_loop_spec {actor : User} {stamp : Job → Job}
    (hid : ∀ j, (stamp j).id = j.id) (huid : ∀ j, (stamp j).user_id = j.user_id) :
    ∀ (ids : List Nat) (db : DB) (count : Nat),
      ids.Nodup → (db.jobs.map Job.id).Nodup →
      (∀ j ∈ db.jobs, (db.users.find? (fun u => u.id = j.user_id)).isSome) →
      jobs_review_loop actor stamp ids db count = some
        ({ db with
           jobs := db.jobs.map fun j =>
             if j.id ∈ ids ∧ canCheckB db.users actor j ∧ j.status = "erfasst"
             then stamp j else j },
         count + (ids.filter (eligibleB db actor)).length) := by
  intro ids
  induction ids with
  | nil =>
    intro db count _ _ _
    simp [jobs_review_loop]
  | cons jid rest ih =>
    intro db count hnd hjn how
    obtain ⟨hjid_notin, hnd'⟩ := List.nodup_cons.mp hnd
    rw [jobs_review_loop]
    cases hf : db.jobs.find? (fun j => j.id = jid) with
    | none =>
      have hnone : ∀ j ∈ db.jobs, j.id ≠ jid := by
        intro j hj
        have := List.find?_eq_none.mp hf j hj
        simpa using this
      have helig : eligibleB db actor jid = false := by
        unfold eligibleB; rw [hf]
      rw [ih db count hnd' hjn how]
      have hmap : (db.jobs.map fun j =>
            if j.id ∈ rest ∧ canCheckB db.users actor j ∧ j.status = "erfasst"
            then stamp j else j) =
          db.jobs.map fun j =>
            if j.id ∈ jid :: rest ∧ canCheckB db.users actor j ∧ j.status = "erfasst"
            then stamp j else j := by
        refine List.map_congr_left fun j hj => ?_
        refine if_congr ?_ rfl rfl
        constructor
        · rintro ⟨hm, hrest⟩
          exact ⟨List.mem_cons_of_mem _ hm, hrest⟩
        · rintro ⟨hm, hrest⟩
          rcases List.mem_cons.mp hm with he | hm'
          · exact absurd he (hnone j hj)
          · exact ⟨hm', hrest⟩
      have hfilter : List.filter (eligibleB db actor) (jid :: rest) =
          List.filter (eligibleB db actor) rest := by
        rw [List.filter_cons_of_neg]
        simp [helig]
      rw [hmap, hfilter]
    | some job =>
      simp only [hf]
      have hjmem : job ∈ db.jobs := List.mem_of_find?_eq_some hf
      have hjid : job.id = jid := by simpa using List.find?_some hf
      have hcc : can_check? db.users actor job = some (canCheckB db.users actor job) :=
        can_check?_eq_canCheckB (how job hjmem)
      simp only [hcc]
      by_cases hcond : (canCheckB db.users actor job = true ∧ job.status = "erfasst")
      · rw [if_pos hcond]
        set g : Job → Job := fun j => if j.id = jid then stamp j else j with hg
        have hgid : ∀ j, (g j).id = j.id := by
          intro j
          by_cases hj : j.id = jid <;> simp [hg, hj, hid]
        have hgfix : ∀ j, j.id ≠ jid → g j = j := by
          intro j hj
          simp [hg, hj]
        have hguid : ∀ j, (g j).user_id = j.user_id := by
          intro j
          by_cases hj : j.id = jid <;> simp [hg, hj, huid]
        have hn₁ : ((db.jobs.map g).map Job.id).Nodup := by
          rw [List.map_map]
          have : (Job.id ∘ g) = Job.id := funext fun j => hgid j
          rw [this]
          exact hjn
        have how₁ : ∀ j₁ ∈ db.jobs.map g,
            (db.users.find? (fun u => u.id = j₁.user_id)).isSome := by
          intro j₁ hj₁
          obtain ⟨j, hj, rfl⟩ := List.mem_map.mp hj₁
          rw [hguid j]
          exact how j hj
        rw [ih { db with jobs := db.jobs.map g } (count + 1) hnd' hn₁ how₁]
        have hjobs : ((db.jobs.map g).map fun j =>
              if j.id ∈ rest ∧ canCheckB db.users actor j ∧ j.status = "erfasst"
              then stamp j else j) =
            db.jobs.map fun j =>
              if j.id ∈ jid :: rest ∧ canCheckB db.users actor j ∧ j.status = "erfasst"
              then stamp j else j := by
          rw [List.map_map]
          refine List.map_congr_left fun j hj => ?_
          by_cases hjd : j.id = jid
          · have hjj : j = job := job_id_unique hjn hj hjmem (hjd.trans hjid.symm)
            subst hjj
            have hgj : g j = stamp j := by simp [hg, hjd]
            have hout : ((stamp j).id ∈ rest ∧ canCheckB db.users actor (stamp j) ∧
                (stamp j).status = "erfasst") = False := by
              simp only [eq_iff_iff, iff_false]
              rintro ⟨hm, -, -⟩
              rw [hid j, hjd] at hm
              exact hjid_notin hm
            have hin : (j.id ∈ jid :: rest ∧ canCheckB db.users actor j ∧
                j.status = "erfasst") := ⟨by simp [hjd], hcond.1, hcond.2⟩
            simp only [Function.comp_apply, hgj, hout, if_false, if_pos hin]
          · have hgj : g j = j := hgfix j hjd
            simp only [Function.comp_apply, hgj]
            refine if_congr ?_ rfl rfl
            constructor
            · rintro ⟨hm, hrest⟩
              exact ⟨List.mem_cons_of_mem _ hm, hrest⟩
            · rintro ⟨hm, hrest⟩
              rcases List.mem_cons.mp hm with he | hm'
              · exact absurd he hjd
              · exact ⟨hm', hrest⟩
        have hstable : ∀ i ∈ rest, eligibleB { db with jobs := db.jobs.map g } actor i =
            eligibleB db actor i := by
          intro i hi
          have hine : i ≠ jid := fun he => hjid_notin (he ▸ hi)
          unfold eligibleB
          rw [find?_id_map_stable hgid hgfix hine db.jobs]
        have helig : eligibleB db actor jid = true := by
          unfold eligibleB
          rw [hf]
          simp [hcond.1, hcond.2]
        have hcount : count + 1 +
            (List.filter (eligibleB { db with jobs := db.jobs.map g } actor) rest).length =
            count + (List.filter (eligibleB db actor) (jid :: rest)).length := by
          rw [List.filter_congr hstable, List.filter_cons_of_pos helig]
          simp only [List.length_cons]
          omega
        rw [hjobs, hcount]
      · rw [if_neg hcond]
        rw [ih db count hnd' hjn how]
        have hjobs : (db.jobs.map fun j =>
              if j.id ∈ rest ∧ canCheckB db.users actor j ∧ j.status = "erfasst"
              then stamp j else j) =
            db.jobs.map fun j =>
              if j.id ∈ jid :: rest ∧ canCheckB db.users actor j ∧ j.status = "erfasst"
              then stamp j else j := by
          refine List.map_congr_left fun j hj => ?_
          by_cases hjd : j.id = jid
          · have hjj : j = job := job_id_unique hjn hj hjmem (hjd.trans hjid.symm)
            subst hjj
            have h1 : (j.id ∈ rest ∧ canCheckB db.users actor j ∧
                j.status = "erfasst") = False := by
              simp only [eq_iff_iff, iff_false]
              rintro ⟨hm, -, -⟩
              rw [hjd] at hm
              exact hjid_notin hm
            have h2 : (j.id ∈ jid :: rest ∧ canCheckB db.users actor j ∧
                j.status = "erfasst") = False := by
              simp only [eq_iff_iff, iff_false]
              rintro ⟨-, hc, hs⟩
              exact hcond ⟨hc, hs⟩
            simp only [h1, h2, if_false]
          · refine if_congr ?_ rfl rfl
            constructor
            · rintro ⟨hm, hrest⟩
              exact ⟨List.mem_cons_of_mem _ hm, hrest⟩
            · rintro ⟨hm, hrest⟩
              rcases List.mem_cons.mp hm with he | hm'
              · exact absurd he hjd
              · exact ⟨hm', hrest⟩
        have helig : eligibleB db actor jid = false := by
          unfold eligibleB
          rw [hf]
          by_cases hc1 : canCheckB db.users actor job = true
          · have hc2 : job.status ≠ "erfasst" := fun hs => hcond ⟨hc1, hs⟩
            simp [hc1, hc2]
          · simp [hc1]
        have hfilter : List.filter (eligibleB db actor) (jid :: rest) =
            List.filter (eligibleB db actor) rest := by
          rw [List.filter_cons_of_neg]
          simp [helig]
        rw [hjobs, hfilter]

/-- C2 (amended): for `routes_jobs.approve_jobs` with an actor holding
`admin` or `ortsvorsteher`, a nonempty duplicate-free id list, unique
stored job ids, and owners present, exactly those ids that resolve to a
stored entry within the actor's scope and still in status `erfasst` are
transitioned (stamped to `freigegeben`); all other ids are skipped without
error and the returned count is the number of eligible ids.  (The claim's
universal form fails: `app.py einsaetze_massenfreigabe` updates every
selected id regardless of status or scope and counts each parseable id —
see the counterexample — and `approve_jobs` refuses a `verwaltung`-only
actor outright.) -/
theorem C2_approve_jobs_characterization :
    ∀ (db : DB) (actor : User) (now : Nat) (job_ids : List Nat),
      ("admin" ∈ get_user_roles actor ∨ "ortsvorsteher" ∈ get_user_roles actor) →
      job_ids ≠ [] → job_ids.Nodup → (db.jobs.map Job.id).Nodup →
      (∀ j ∈ db.jobs, (db.users.find? (fun u => u.id = j.user_id)).isSome) →
      approve_jobs db actor now job_ids =
        ({ db with
           jobs := db.jobs.map fun j =>
             if j.id ∈ job_ids ∧ canCheckB db.users actor j ∧ j.status = "erfasst"
             then approveStamp actor now j else j },
         Res.ok ((job_ids.filter (eligibleB db actor)).length)) := by
  intro db actor now ids hr hne hnd hjn how
  unfold approve_jobs
  rw [if_neg (not_not_intro hr), if_neg hne]
  rw [jobs_review_loop_spec (approveStamp_id actor now) (fun j => rfl) ids db 0 hnd hjn how]
  simp

theorem C2_approve_jobs_characterization_witness :
    (approve_jobs dbMixed uOV 5 [1, 2]).2 = Res.ok 1 := by
  rw [C2_approve_jobs_characterization dbMixed uOV 5 [1, 2] (by decide) (by decide)
    (by decide) (by decide) (by decide)]
  decide

theorem einsatz_neu_rows_mem (uid now : Nat) (parse : String → Option Rat) :
    ∀ (ds as bs : List String) (db : DB) (erf feh : Nat),
      ∀ j ∈ (einsatz_neu_rows uid now parse ds as bs db erf feh).1.jobs,
        j ∈ db.jobs ∨ (j.user_id = uid ∧ j.status = "erfasst" ∧
          j.rejection_reason = none ∧ j.checked_time = none ∧ j.checked_by = none) := by
  intro ds
  induction ds with
  | nil => intro as bs db erf feh j hj; exact Or.inl hj
  | cons d ds' ih =>
    intro as bs db erf feh j hj
    cases as with
    | nil =>
      rw [einsatz_neu_rows] at hj
      exact ih _ _ _ _ _ j hj
    | cons a as' =>
      cases bs with
      | nil =>
        rw [einsatz_neu_rows] at hj
        exact ih _ _ _ _ _ j hj
      | cons b bs' =>
        rw [einsatz_neu_rows] at hj
        by_cases he : (d = "" ∨ a = "" ∨ b = "")
        · rw [if_pos he] at hj
          exact ih _ _ _ _ _ j hj
        · rw [if_neg he] at hj
          cases hp : parse a with
          | none =>
            simp only [hp] at hj
            exact ih _ _ _ _ _ j hj
          | some hv =>
            simp only [hp] at hj
            rcases ih _ _ _ _ _ j hj with hmem | hgood
            · rcases List.mem_append.mp hmem with h1 | h2
              · exact Or.inl h1
              · have hje : j = neuEntry db.nextId uid d hv b now := by simpa using h2
                subst hje
                exact Or.inr ⟨rfl, rfl, rfl, rfl, rfl⟩
            · exact Or.inr hgood

/-- C5 (amended): every create path leaves the reviewer fields
(`rejection_reason`/`checked_time`/`checked_by`) at their `NULL` defaults.
`routes_jobs.create_job` and `routes/jobs.create_job` both create the
entry with status `data.get('status', 'erfasst')` — i.e. `erfasst` only
when the payload supplies no status; a payload-supplied status is stored
as given (see the counterexample).  `app.py einsatz_neu` always creates
entries owned by the actor in status `erfasst` with null reviewer
fields. -/
theorem C5_create_fields :
    (∀ (db : DB) (actor : User) (now : Nat) (p : CreatePayload) (d : String)
        (h : Rat) (b : String),
        p.datum = some d → p.arbeitsstunden = some h →
        p.taetigkeitsbeschreibung = some b →
        (p.user_id.getD actor.id = actor.id ∨
          ("admin" ∈ get_user_roles actor ∨ "ortsvorsteher" ∈ get_user_roles actor)) →
        create_job db actor now p =
          ({ db with
             jobs := db.jobs ++
               [{ id := db.nextId, user_id := p.user_id.getD actor.id, datum := d,
                  arbeitsstunden := h, taetigkeitsbeschreibung := b,
                  machine_used := p.machine_used, status := p.status.getD "erfasst",
                  rejection_reason := none, checked_time := none, checked_by := none,
                  created_at := now }],
             nextId := db.nextId + 1 }, Res.ok db.nextId)) ∧
    (∀ (db : DB) (actor : User) (now : Nat) (parse : String → Option Rat)
        (ds as bs : List String),
        ∀ j ∈ (einsatz_neu db actor now parse ds as bs).1.jobs,
          j ∈ db.jobs ∨ (j.user_id = actor.id ∧ j.status = "erfasst" ∧
            j.rejection_reason = none ∧ j.checked_time = none ∧ j.checked_by = none)) ∧
    (∀ (db : DBR) (actor : User) (now : Nat) (p : CreatePayloadR) (d c : String),
        p.date = some d → p.work_comment = some c →
        (p.user_id.getD actor.id = actor.id ∨
          ("admin" ∈ get_user_roles actor ∨ "ortsvorsteher" ∈ get_user_roles actor)) →
        create_jobR db actor now p =
          ({ db with
             jobs := db.jobs ++
               [{ id := db.nextId, user_id := p.user_id.getD actor.id, date := d,
                  time_start := p.time_start, time_end := p.time_end,
                  pause_hours := p.pause_hours.getD 0, work_hours := p.work_hours,
                  work_comment := c, machine_id := p.machine_id,
                  machine_hours := p.machine_hours.getD 0,
                  status := p.status.getD "erfasst", rejection_reason := none,
                  checked_time := none, checked_by := none, created_at := now }],
             nextId := db.nextId + 1 }, Res.ok db.nextId)) := by
  refine ⟨?_, ?_, ?_⟩
  · intro db actor now p d h b hd hh hb hperm
    unfold create_job
    have hnp : ¬(p.user_id.getD actor.id ≠ actor.id ∧
        ¬("admin" ∈ get_user_roles actor ∨ "ortsvorsteher" ∈ get_user_roles actor)) := by
      rintro ⟨hne, hnr⟩
      rcases hperm with h1 | h1
      · exact hne h1
      · exact hnr h1
    rw [if_neg hnp]
    simp only [hd, hh, hb]
  · intro db actor now parse ds as bs j hj
    exact einsatz_neu_rows_mem actor.id now parse ds as bs db 0 0 j hj
  · intro db actor now p d c hd hc hperm
    unfold create_jobR
    have hnp : ¬(p.user_id.getD actor.id ≠ actor.id ∧
        ¬("admin" ∈ get_user_roles actor ∨ "ortsvorsteher" ∈ get_user_roles actor)) := by
      rintro ⟨hne, hnr⟩
      rcases hperm with h1 | h1
      · exact hne h1
      · exact hnr h1
    rw [if_neg hnp]
    simp only [hd, hc]

theorem C5_create_fields_witness :
    create_job { users := [uW2], jobs := [], nextId := 1 } uW2 5 statusPayload =
      ({ users := [uW2],
         jobs := [{ id := 1, user_id := uW2.id, datum := "2024-03-01",
                    arbeitsstunden := 4, taetigkeitsbeschreibung := "Wegpflege",
                    machine_used := none, status := "freigegeben",
                    rejection_reason := none, checked_time := none, checked_by := none,
                    created_at := 5 }],
         nextId := 2 }, Res.ok 1) ∧
    (∀ j ∈ (einsatz_neu { users := [uW2], jobs := [], nextId := 1 } uW2 9 ratParse
        ["2024-03-01"] ["4"] ["Wegpflege"]).1.jobs,
      j ∈ ([] : List Job) ∨ (j.user_id = uW2.id ∧ j.status = "erfasst" ∧
        j.rejection_reason = none ∧ j.checked_time = none ∧ j.checked_by = none)) ∧
    ((create_jobR { jobs := [], nextId := 1 } uW2 5 statusPayloadR).2 = Res.ok 1 ∧
      ((create_jobR { jobs := [], nextId := 1 } uW2 5 statusPayloadR).1.jobs.map
          fun j => (j.status, j.rejection_reason, j.checked_time, j.checked_by)) =
        [("freigegeben", none, none, none)]) := by
  refine ⟨?_, ?_, ?_⟩
  · rw [C5_create_fields.1 { users := [uW2], jobs := [], nextId := 1 } uW2 5 statusPayload
      "2024-03-01" 4 "Wegpflege" rfl rfl rfl (Or.inl (by decide))]
    decide
  · exact C5_create_fields.2.1 { users := [uW2], jobs := [], nextId := 1 } uW2 9 ratParse
      ["2024-03-01"] ["4"] ["Wegpflege"]
  · rw [C5_create_fields.2.2 { jobs := [], nextId := 1 } uW2 5 statusPayloadR
      "2024-03-01" "Wegpflege" rfl rfl (Or.inl (by decide))]
    exact ⟨rfl, by decide⟩

theorem updateApply_status_no_role {roles : List String} {actor : User} {now : Nat}
    {p : UpdatePatch} (hA : "admin" ∉ roles) (hO : "ortsvorsteher" ∉ roles) (j : Job) :
    (updateApply roles actor now p j).status = j.status := by
  have hro : ¬("admin" ∈ roles ∨ "ortsvorsteher" ∈ roles) := by
    rintro (h | h)
    exacts [hA h, hO h]
  unfold updateApply
  rcases p with ⟨pd, pu, pb, ph, pm, ps⟩
  cases pd <;> cases pu <;> cases pb <;> cases ph <;> cases pm <;> cases ps <;>
    simp [hro]

/-- C6 (amended): in `routes_jobs.update_job` a supplied `status` field is
applied only for `admin`/`ortsvorsteher` actors, so an update by an actor
holding neither role — in particular the owning worker of a `submitted`
entry — never changes any entry's status, whatever the patch contains.
(The claim's universal form fails in the `routes/jobs.py` variant, which
applies a supplied `status` for any permitted caller — see the
counterexample.) -/
theorem C6_worker_update_preserves_status :
    ∀ (db : DB) (actor : User) (now : Nat) (job_id : Option Nat) (p : UpdatePatch),
      "admin" ∉ get_user_roles actor → "ortsvorsteher" ∉ get_user_roles actor →
      ((update_job db actor now job_id p).1.jobs.map Job.status) =
        db.jobs.map Job.status := by
  intro db actor now job_id p hA hO
  unfold update_job
  cases job_id with
  | none => rfl
  | some jid =>
    cases hf : db.jobs.find? (fun j => j.id = jid) with
    | none => simp only [hf]
    | some job =>
      simp only [hf]
      cases hce : can_edit? db.users actor job with
      | none => simp only [hce]
      | some ce =>
        simp only [hce]
        by_cases hc : ¬ ce = true
        · rw [if_pos hc]
        · rw [if_neg hc]
          by_cases hu : ¬ updateNonempty (get_user_roles actor) p = true
          · rw [if_pos hu]
          · rw [if_neg hu]
            simp only [List.map_map]
            refine List.map_congr_left fun j _ => ?_
            by_cases hj : j.id = jid
            · simp only [Function.comp_apply, if_pos hj]
              exact updateApply_status_no_role hA hO j
            · simp only [Function.comp_apply, if_neg hj]

theorem C6_worker_update_preserves_status_witness :
    ((update_job dbSubmitted uW2 5 (some 1)
        { datum := none, user_id := none, taetigkeitsbeschreibung := some "Maehen",
          arbeitsstunden := none, machine_used := none,
          status := some "freigegeben" }).1.jobs.map Job.status) = ["erfasst"] := by
  rw [C6_worker_update_preserves_status dbSubmitted uW2 5 (some 1)
    { datum := none, user_id := none, taetigkeitsbeschreibung := some "Maehen",
      arbeitsstunden := none, machine_used := none, status := some "freigegeben" }
    (by decide) (by decide)]
  decide

/-- C7 (amended): for a worker-only actor (neither `admin` nor
`ortsvorsteher`), `routes_jobs.delete_job` answers NotFound for an unknown
id and otherwise deletes exactly when the entry is owned by the actor and
its status is not `freigegeben` — so own `rejected`/`billed` entries are
deletable too (see the counterexample), and everything else is refused
with Permission and left unchanged.  The `routes/jobs.py` delete variant
performs no check at all: it always reports success. -/
theorem C7_worker_delete_characterization :
    (∀ (db : DB) (actor : User) (jid : Nat),
        "admin" ∉ get_user_roles actor → "ortsvorsteher" ∉ get_user_roles actor →
        delete_job db actor (some jid) =
          match db.jobs.find? (fun j => j.id = jid) with
          | none => (db, Res.notFound)
          | some job =>
            if job.user_id = actor.id ∧ job.status ≠ "freigegeben" then
              ({ db with jobs := db.jobs.filter fun j => ¬(j.id = jid) }, Res.done)
            else (db, Res.permission)) ∧
    (∀ (db : DBR) (job_id : Option Nat), (delete_jobR db job_id).2 = Res.done) := by
  constructor
  · intro db actor jid hA hO
    unfold delete_job
    cases hf : db.jobs.find? (fun j => j.id = jid) with
    | none => simp only [hf]
    | some job =>
      simp only [hf]
      have hce : can_edit? db.users actor job =
          some (decide (job.user_id = actor.id ∧ job.status ≠ "freigegeben")) := by
        unfold can_edit?
        rw [if_neg hA, if_neg hO]
      simp only [hce]
      by_cases hp : (job.user_id = actor.id ∧ job.status ≠ "freigegeben")
      · rw [if_pos (by simp [hp]), if_pos hp]
      · rw [if_neg (by simp [hp]), if_neg hp]
  · intro db job_id
    cases job_id <;> rfl

theorem C7_worker_delete_characterization_witness :
    (delete_job dbSubmitted uW2 (some 1)).2 = Res.done ∧
    (delete_jobR { jobs := [jrSubmitted], nextId := 2 } (some 1)).2 = Res.done := by
  constructor
  · rw [C7_worker_delete_characterization.1 dbSubmitted uW2 1 (by decide) (by decide)]
    decide
  · exact C7_worker_delete_characterization.2 { jobs := [jrSubmitted], nextId := 2 } (some 1)

/-- C8 (amended): the listing scope is chosen by the first matching branch,
not by the highest privilege.  In `app.py einsaetze_liste` the `wegewart`
test comes first, so any actor holding the worker tag — also one who
additionally holds `ortsvorsteher` (see the counterexample) — receives
only their own entries.  In `routes_jobs.jobs` the order is `admin`, then
`ortsvorsteher`, else own entries, so an actor holding only `verwaltung`
also receives only their own entries instead of the all-districts
scope. -/
theorem C8_listing_scope_first_branch :
    (∀ (db : DB) (actor : User),
        has_role actor.roles "wegewart" = true →
        ∀ j ∈ einsaetze_liste db actor, j.user_id = actor.id) ∧
    (∀ (db : DB) (actor : User),
        "admin" ∉ get_user_roles actor → "ortsvorsteher" ∉ get_user_roles actor →
        ∀ j ∈ jobs_listing db actor, j.user_id = actor.id) := by
  constructor
  · intro db actor hw j hj
    obtain ⟨_, hp⟩ := List.mem_filter.mp hj
    cases hf : db.users.find? (fun u => u.id = j.user_id) with
    | none => rw [hf] at hp; cases hp
    | some owner =>
      rw [hf] at hp
      dsimp only at hp
      unfold einsaetze_liste_rolescope at hp
      rw [if_pos hw] at hp
      exact of_decide_eq_true hp
  · intro db actor hA hO j hj
    obtain ⟨_, hp⟩ := List.mem_filter.mp hj
    cases hf : db.users.find? (fun u => u.id = j.user_id) with
    | none => rw [hf] at hp; cases hp
    | some owner =>
      rw [hf] at hp
      dsimp only at hp
      unfold jobs_rolescope at hp
      dsimp only at hp
      rw [if_neg hA, if_neg hO] at hp
      exact of_decide_eq_true hp

theorem C8_listing_scope_first_branch_witness :
    (∀ j ∈ einsaetze_liste dbDualRole uDual, j.user_id = uDual.id) ∧
    (∀ j ∈ jobs_listing dbSubmitted uVerw, j.user_id = uVerw.id) :=
  ⟨C8_listing_scope_first_branch.1 dbDualRole uDual (by decide),
   C8_listing_scope_first_branch.2 dbSubmitted uVerw (by decide) (by decide)⟩

theorem insertedRows_mem (uid now : Nat) (parse : String → Option Rat) :
    ∀ (rows : List (String × String × String)) (nid : Nat),
      ∀ j ∈ insertedRows uid now parse nid rows,
        j.user_id = uid ∧ j.status = "erfasst" ∧ j.rejection_reason = none ∧
          j.checked_time = none ∧ j.checked_by = none := by
  intro rows
  induction rows with
  | nil => intro nid j hj; simp [insertedRows] at hj
  | cons r rest ih =>
    intro nid j hj
    obtain ⟨d, a, b⟩ := r
    rw [insertedRows] at hj
    by_cases he : (d = "" ∨ a = "" ∨ b = "")
    · rw [if_pos he] at hj
      exact ih nid j hj
    · rw [if_neg he] at hj
      cases hp : parse a with
      | none =>
        simp only [hp] at hj
        exact ih nid j hj
      | some hv =>
        simp only [hp] at hj
        rcases List.mem_cons.mp hj with rfl | hj'
        · exact ⟨rfl, rfl, rfl, rfl, rfl⟩
        · exact ih (nid + 1) j hj'

/-- The creation loop characterized row by row: with the three form arrays
of one length, the counters are the numbers of valid and invalid rows and
the store grows by exactly the valid rows' entries. -/
theorem einsatz_neu_rows_spec (uid now : Nat) (parse : String → Option Rat) :
    ∀ (ds as bs : List String) (db : DB) (erf feh : Nat),
      as.length = ds.length → bs.length = ds.length →
      einsatz_neu_rows uid now parse ds as bs db erf feh =
        ({ db with
           jobs := db.jobs ++ insertedRows uid now parse db.nextId (ds.zip (as.zip bs)),
           nextId := db.nextId +
             ((ds.zip (as.zip bs)).filter (validRow parse)).length },
         erf + ((ds.zip (as.zip bs)).filter (validRow parse)).length,
         feh + ((ds.zip (as.zip bs)).filter (fun r => ! validRow parse r)).length) := by
  intro ds
  induction ds with
  | nil =>
    intro as bs db erf feh _ _
    simp [einsatz_neu_rows, insertedRows]
  | cons d ds' ih =>
    intro as bs db erf feh ha hb
    cases as with
    | nil => simp at ha
    | cons a as' =>
      cases bs with
      | nil => simp at hb
      | cons b bs' =>
        have ha' : as'.length = ds'.length := by simpa using ha
        have hb' : bs'.length = ds'.length := by simpa using hb
        have hzip : (d :: ds').zip ((a :: as').zip (b :: bs')) =
            (d, a, b) :: ds'.zip (as'.zip bs') := rfl
        rw [einsatz_neu_rows, hzip]
        by_cases he : (d = "" ∨ a = "" ∨ b = "")
        · rw [if_pos he, ih as' bs' db erf (feh + 1) ha' hb']
          have hv : validRow parse (d, a, b) = false := by
            unfold validRow
            rcases he with h | h | h <;> simp [h]
          have h1 : insertedRows uid now parse db.nextId
                ((d, a, b) :: ds'.zip (as'.zip bs')) =
              insertedRows uid now parse db.nextId (ds'.zip (as'.zip bs')) := by
            rw [insertedRows, if_pos he]
          have h2 : List.filter (validRow parse) ((d, a, b) :: ds'.zip (as'.zip bs')) =
              List.filter (validRow parse) (ds'.zip (as'.zip bs')) := by
            rw [List.filter_cons_of_neg]
            simp [hv]
          have h3 : List.filter (fun r => ! validRow parse r)
                ((d, a, b) :: ds'.zip (as'.zip bs')) =
              (d, a, b) :: List.filter (fun r => ! validRow parse r)
                (ds'.zip (as'.zip bs')) := by
            rw [List.filter_cons_of_pos]
            simp [hv]
          rw [h1, h2, h3]
          simp only [List.length_cons, Prod.mk.injEq, true_and, and_true]
          omega
        · rw [if_neg he]
          have hne : ¬ d = "" ∧ ¬ a = "" ∧ ¬ b = "" := by
            push_neg at he
            exact he
          cases hp : parse a with
          | none =>
            simp only [hp]
            rw [ih as' bs' db erf (feh + 1) ha' hb']
            have hv : validRow parse (d, a, b) = false := by
              unfold validRow
              simp [hp, hne.1, hne.2.1, hne.2.2]
            have h1 : insertedRows uid now parse db.nextId
                  ((d, a, b) :: ds'.zip (as'.zip bs')) =
                insertedRows uid now parse db.nextId (ds'.zip (as'.zip bs')) := by
              rw [insertedRows, if_neg he]
              simp only [hp]
            have h2 : List.filter (validRow parse) ((d, a, b) :: ds'.zip (as'.zip bs')) =
                List.filter (validRow parse) (ds'.zip (as'.zip bs')) := by
              rw [List.filter_cons_of_neg]
              simp [hv]
            have h3 : List.filter (fun r => ! validRow parse r)
                  ((d, a, b) :: ds'.zip (as'.zip bs')) =
                (d, a, b) :: List.filter (fun r => ! validRow parse r)
                  (ds'.zip (as'.zip bs')) := by
              rw [List.filter_cons_of_pos]
              simp [hv]
            rw [h1, h2, h3]
            simp only [List.length_cons, Prod.mk.injEq, true_and, and_true]
            omega
          | some hv =>
            simp only [hp]
            rw [ih as' bs'
              { db with jobs := db.jobs ++ [neuEntry db.nextId uid d hv b now],
                        nextId := db.nextId + 1 } (erf + 1) feh ha' hb']
            have hvr : validRow parse (d, a, b) = true := by
              unfold validRow
              simp [hp, hne.1, hne.2.1, hne.2.2]
            have h1 : insertedRows uid now parse db.nextId
                  ((d, a, b) :: ds'.zip (as'.zip bs')) =
                neuEntry db.nextId uid d hv b now ::
                  insertedRows uid now parse (db.nextId + 1) (ds'.zip (as'.zip bs')) := by
              rw [insertedRows, if_neg he]
              simp only [hp]
            have h2 : List.filter (validRow parse) ((d, a, b) :: ds'.zip (as'.zip bs')) =
                (d, a, b) :: List.filter (validRow parse) (ds'.zip (as'.zip bs')) := by
              rw [List.filter_cons_of_pos]
              simp [hvr]
            have h3 : List.filter (fun r => ! validRow parse r)
                  ((d, a, b) :: ds'.zip (as'.zip bs')) =
                List.filter (fun r => ! validRow parse r) (ds'.zip (as'.zip bs')) := by
              rw [List.filter_cons_of_neg]
              simp [hvr]
            rw [h1, h2, h3]
            simp only [List.length_cons, Prod.mk.injEq, DB.mk.injEq, List.append_assoc,
              List.singleton_append, true_and, and_true]
            omega

/-- C10 (confirmed): multi-row creation processes rows independently: with
the three form arrays of equal length, exactly the rows with all of date,
hours, and description non-empty and parseable hours are inserted — each
owned by the acting user, in status `erfasst` with null reviewer fields —
the reported success count is the number of such rows, and the error count
is the number of remaining rows.  `parse` ranges over all models of
Python `float(...)`. -/
theorem C10_einsatz_neu_rowwise :
    ∀ (db : DB) (actor : User) (now : Nat) (parse : String → Option Rat)
      (datums arbeitszeiten bemerkungen : List String),
      arbeitszeiten.length = datums.length → bemerkungen.length = datums.length →
      einsatz_neu db actor now parse datums arbeitszeiten bemerkungen =
        ({ db with
           jobs := db.jobs ++ insertedRows actor.id now parse db.nextId
             (datums.zip (arbeitszeiten.zip bemerkungen)),
           nextId := db.nextId +
             ((datums.zip (arbeitszeiten.zip bemerkungen)).filter
                 (validRow parse)).length },
         ((datums.zip (arbeitszeiten.zip bemerkungen)).filter (validRow parse)).length,
         ((datums.zip (arbeitszeiten.zip bemerkungen)).filter
             (fun r => ! validRow parse r)).length) ∧
      ∀ j ∈ insertedRows actor.id now parse db.nextId
          (datums.zip (arbeitszeiten.zip bemerkungen)),
        j.user_id = actor.id ∧ j.status = "erfasst" ∧ j.rejection_reason = none ∧
          j.checked_time = none ∧ j.checked_by = none := by
  intro db actor now parse ds as bs ha hb
  constructor
  · unfold einsatz_neu
    rw [einsatz_neu_rows_spec actor.id now parse ds as bs db 0 0 ha hb]
    simp
  · exact insertedRows_mem actor.id now parse (ds.zip (as.zip bs)) db.nextId

theorem C10_einsatz_neu_rowwise_witness :
    (einsatz_neu { users := [uW2], jobs := [], nextId := 1 } uW2 9 ratParse
        ["2024-03-01", "", "2024-03-02"] ["4", "5", "x"] ["a", "b", "c"]).2 = (1, 2) := by
  rw [(C10_einsatz_neu_rowwise { users := [uW2], jobs := [], nextId := 1 } uW2 9 ratParse
    ["2024-03-01", "", "2024-03-02"] ["4", "5", "x"] ["a", "b", "c"]
    (by decide) (by decide)).1]
  decide

/-- Soundness of the race decomposition: executed serially without
interleaving, the read half followed by the write half of one
`approve_jobs` iteration is exactly the single-id review loop. -/
theorem approve_loop_body_decomposes :
    ∀ (db : DB) (actor : User) (now jid : Nat),
      jobs_review_loop actor (approveStamp actor now) [jid] db 0 =
        match approve_step_read db actor jid with
        | none => none
        | some d => some (approve_step_write db actor now jid d) := by
  intro db actor now jid
  rw [jobs_review_loop]
  unfold approve_step_read approve_step_write
  cases hf : db.jobs.find? (fun j => j.id = jid) with
  | none => simp [jobs_review_loop]
  | some job =>
    cases hc : can_check? db.users actor job with
    | none => simp only [hc]
    | some ok =>
      simp only [hc]
      by_cases hcond : (ok = true ∧ job.status = "erfasst")
      · rw [if_pos hcond, jobs_review_loop]
        simp [hcond.1, hcond.2]
      · rw [if_neg hcond, jobs_review_loop]
        have hb : (ok && decide (job.status = "erfasst")) = false := by
          by_cases h1 : ok = true
          · have h2 : job.status ≠ "erfasst" := fun hs => hcond ⟨h1, hs⟩
            simp [h1, h2]
          · simp [h1]
        simp [hb]
